import Mathlib

/-!
# Trivimum game-state synchronization and scoring protocol: a shallow embedding

This file embeds the core of the Trivimum real-time quiz application in Lean 4
and proves the testable properties of its specification against it:

* a small layer of JavaScript value semantics (truthiness, `typeof` tests,
  `String.prototype.trim`, ASCII lowering, `Number(...)`/`isNaN` string
  classification, Levenshtein distance) used by the source;
* the answer matching engine `checkAnswer`;
* the resilient remote-operation layer `withRetry` with its error taxonomy
  and `isRetryableError` classification, modelled as a trace of attempts;
* the game-state normalizer `normalizeGameState` / `sanitizePlayer` over raw
  store values;
* the admin phase state machine (`handleStartQuestion`, `handleRevealAnswer`,
  `handleNextQuestion`, `handlePreviousQuestion`, `handleShowLeaderboard`,
  `handleHideLeaderboard`, `handleResetGame`, manual overrides) and the player
  session operations (`handleLogin`, `submitAnswer`, `updateLiveTyping`),
  together with a reachability relation over the shared game state.

JavaScript numbers are modelled as either a finite integer or `invalid`
(covering `NaN` and any non-number value, which the source always treats alike
through `typeof x === 'number' && !isNaN(x)` tests). Fractional values play no
role in any of the verified properties. String lowering is modelled on the
ASCII range.
-/

/-! ## JavaScript value semantics -/

/-- A JavaScript number-typed value as it occurs in the game state: either a
finite integer or `invalid`, which stands for `NaN` (the code only ever
distinguishes numbers via `typeof x === 'number' && !isNaN(x)`). -/
inductive JSNum where
  | invalid
  | int (i : Int)
deriving DecidableEq, Repr

/-- A primitive JavaScript value as read from the store: absent/`undefined`,
`null`, a string, a number, or a boolean. -/
inductive RawVal where
  | undef
  | nullV
  | str (s : String)
  | numV (n : JSNum)
  | boolV (b : Bool)
deriving DecidableEq, Repr

/-- JavaScript truthiness of a primitive value: `undefined`, `null`, `""`,
`0`, `NaN` and `false` are falsy, everything else is truthy. -/
def jsTruthy : RawVal → Bool
  | .undef => false
  | .nullV => false
  | .str s => !(s = "")
  | .numV .invalid => false
  | .numV (.int i) => !(i = 0)
  | .boolV b => b

/-- `typeof v === 'number'`. -/
def isNumberTyped : RawVal → Bool
  | .numV _ => true
  | _ => false

/-- `typeof v === 'string'`. -/
def isStringTyped : RawVal → Bool
  | .str _ => true
  | _ => false

/-- Truthiness of a `JSNum`-typed field (`!!x` in the source): nonzero finite
numbers are truthy, `0` and `NaN` are falsy. -/
def jsNumTruthy : JSNum → Bool
  | .int i => !(i = 0)
  | .invalid => false

/-- `typeof x === 'number' && !isNaN(x) ? x : 0`: the score coercion used by
the scoring step and the sanitizer. -/
def validNumber : JSNum → Int
  | .int i => i
  | .invalid => 0

/-- The WhiteSpace / LineTerminator set removed by `String.prototype.trim`. -/
def isJsWhitespace (c : Char) : Bool :=
  c = ' ' || c = '\t' || c = '\n' || c = '\r' ||
  c = Char.ofNat 0x0B || c = Char.ofNat 0x0C || c = Char.ofNat 0xA0 ||
  c = Char.ofNat 0xFEFF || c = Char.ofNat 0x1680 ||
  (0x2000 ≤ c.toNat && c.toNat ≤ 0x200A) ||
  c = Char.ofNat 0x2028 || c = Char.ofNat 0x2029 ||
  c = Char.ofNat 0x202F || c = Char.ofNat 0x205F || c = Char.ofNat 0x3000

/-- `String.prototype.trim`: strip leading and trailing whitespace. -/
def jsTrim (s : String) : String :=
  ⟨((s.data.dropWhile isJsWhitespace).reverse.dropWhile isJsWhitespace).reverse⟩

/-- `String.prototype.toLowerCase`, modelled on the ASCII range. -/
def jsToLower (s : String) : String :=
  ⟨s.data.map Char.toLower⟩

/-- Levenshtein edit distance on character lists, computed with explicit fuel
(each recursive call strictly shrinks the combined length, so
`xs.length + ys.length` fuel always suffices). -/
def levFuel : Nat → List Char → List Char → Nat
  | 0, xs, ys => xs.length + ys.length
  | _ + 1, [], ys => ys.length
  | _ + 1, x :: xs, [] => (x :: xs).length
  | n + 1, x :: xs, y :: ys =>
      if x = y then levFuel n xs ys
      else 1 + min (levFuel n xs (y :: ys)) (min (levFuel n (x :: xs) ys) (levFuel n xs ys))

/-- Levenshtein edit distance between two strings (the `fast-levenshtein`
`levenshtein.get` used by the matcher). -/
def levenshteinGet (a b : String) : Nat :=
  levFuel (a.data.length + b.data.length) a.data b.data

/-! `Number(s)` string classification: which strings convert to `NaN`.
A `StringNumericLiteral` is optional whitespace around either nothing (→ 0),
a signed decimal literal or `Infinity`, or an unsigned hex/octal/binary
literal. -/

def isHexDigitCh (c : Char) : Bool :=
  c.isDigit || ('a' ≤ c && c ≤ 'f') || ('A' ≤ c && c ≤ 'F')

def isOctDigitCh (c : Char) : Bool := '0' ≤ c && c ≤ '7'

def isBinDigitCh (c : Char) : Bool := c = '0' || c = '1'

/-- Accept an optional exponent part (`e`/`E`, optional sign, digits) followed
by end of input. -/
def expTailOk (cs : List Char) : Bool :=
  match cs with
  | [] => true
  | c :: rest =>
      if c = 'e' || c = 'E' then
        let rest2 := match rest with
          | s :: r => if s = '+' || s = '-' then r else rest
          | [] => rest
        let (ds, rest3) := rest2.span Char.isDigit
        !ds.isEmpty && rest3.isEmpty
      else false

/-- Unsigned decimal literal: `digits ['.' digits] [exp]` or `'.' digits [exp]`. -/
def isUnsignedDecimal (cs : List Char) : Bool :=
  let (intPart, rest) := cs.span Char.isDigit
  if intPart.isEmpty then
    match rest with
    | '.' :: r =>
        let (frac, r2) := r.span Char.isDigit
        !frac.isEmpty && expTailOk r2
    | _ => false
  else
    match rest with
    | '.' :: r =>
        let (_, r2) := r.span Char.isDigit
        expTailOk r2
    | _ => expTailOk rest

def isUnsignedDecOrInfinity (cs : List Char) : Bool :=
  isUnsignedDecimal cs || cs = "Infinity".data

/-- Signed decimal literal or `Infinity`. -/
def isSignedDecimal (cs : List Char) : Bool :=
  match cs with
  | c :: rest =>
      if c = '+' || c = '-' then isUnsignedDecOrInfinity rest
      else isUnsignedDecOrInfinity (c :: rest)
  | [] => false

/-- Unsigned non-decimal literal: `0x`/`0o`/`0b` radix literals. -/
def isNonDecimalLiteral (cs : List Char) : Bool :=
  match cs with
  | '0' :: x :: rest =>
      if x = 'x' || x = 'X' then !rest.isEmpty && rest.all isHexDigitCh
      else if x = 'o' || x = 'O' then !rest.isEmpty && rest.all isOctDigitCh
      else if x = 'b' || x = 'B' then !rest.isEmpty && rest.all isBinDigitCh
      else false
  | _ => false

/-- Does `Number(s)` produce a (non-`NaN`) number? The empty and
whitespace-only strings convert to `0`. -/
def jsStringIsNumeric (s : String) : Bool :=
  let cs := (jsTrim s).data
  cs.isEmpty || isSignedDecimal cs || isNonDecimalLiteral cs

/-- `isNaN(Number(s))`. -/
def jsNumberIsNaN (s : String) : Bool := !jsStringIsNumeric s

/-! ## Error taxonomy and retry classification (`types/errors.ts`,
`errorHandling.ts`) -/

/-- The closed error-code taxonomy `FirebaseErrorCode`. -/
inductive FirebaseErrorCode where
  | permissionDenied
  | networkRequestFailed
  | unavailable
  | invalidArgument
  | notFound
  | alreadyExists
  | resourceExhausted
  | failedPrecondition
  | aborted
  | outOfRange
  | unimplemented
  | internal
  | dataLoss
  | unauthenticated
  | deadlineExceeded
  | cancelled
  | unknown
  | invalidConfig
  | connectionLost
  | offline
  | quotaExceeded
deriving DecidableEq, Repr

/-- `isRetryableError`: membership in the retryable subset. -/
def isRetryableError (errorCode : FirebaseErrorCode) : Bool :=
  let retryableErrors : List FirebaseErrorCode :=
    [.networkRequestFailed, .unavailable, .deadlineExceeded, .internal,
     .aborted, .cancelled]
  retryableErrors.contains errorCode

/-! ## The retry wrapper `withRetry` (`firebaseOperations.ts`)

Each attempt of the wrapped operation either succeeds or fails with a
classified error code; the whole run is summarized as a trace recording the
number of attempts, the backoff sleeps performed, the `onRetry` and `onError`
observer calls, and the final result (`some e` models a thrown
`FirebaseOperationError` wrapping the classified error `e`). -/

/-- Outcome of one attempt of the wrapped operation (timeouts are failures
classified like any other error). -/
inductive AttemptOutcome where
  | ok
  | fail (e : FirebaseErrorCode)
deriving DecidableEq, Repr

/-- Observable trace of a `withRetry` run. -/
structure RetryTrace where
  attempts : Nat
  delays : List Nat
  onRetryCalls : List (Nat × FirebaseErrorCode)
  onErrorCalls : List FirebaseErrorCode
  result : Option FirebaseErrorCode
deriving DecidableEq, Repr

/-- The body of `withRetry`'s loop from iteration `attempt` on, with
`remaining` further iterations allowed (`remaining = retries - attempt`;
the loop runs while `attempt <= retries`). -/
def withRetryGo (outcomes : Nat → AttemptOutcome) (retryDelay : Nat) :
    Nat → Nat → RetryTrace
  | attempt, remaining =>
    match outcomes attempt with
    | .ok => { attempts := 1, delays := [], onRetryCalls := [],
               onErrorCalls := [], result := none }
    | .fail e =>
      if isRetryableError e then
        match remaining with
        | 0 =>
            { attempts := 1, delays := [], onRetryCalls := [],
              onErrorCalls := [e], result := some e }
        | r + 1 =>
            let rest := withRetryGo outcomes retryDelay (attempt + 1) r
            { attempts := rest.attempts + 1,
              delays := retryDelay * 2 ^ attempt :: rest.delays,
              onRetryCalls := (attempt + 1, e) :: rest.onRetryCalls,
              onErrorCalls := rest.onErrorCalls,
              result := rest.result }
      else
        { attempts := 1, delays := [], onRetryCalls := [],
          onErrorCalls := [e], result := some e }

/-- `withRetry` with retry count `retries` and base backoff `retryDelay`
(defaults `3` and `1000` ms). -/
def withRetry (outcomes : Nat → AttemptOutcome) (retries retryDelay : Nat) :
    RetryTrace :=
  withRetryGo outcomes retryDelay 0 retries

/-! ## Game data model (`types/index.ts`) -/

/-- The four game phases. -/
inductive GameStatus where
  | LOBBY
  | QUESTION_ACTIVE
  | REVEAL_ANSWER
  | LEADERBOARD
deriving DecidableEq, Repr

inductive QuestionType where
  | MCQ
  | TEXT
deriving DecidableEq, Repr

/-- `correctAnswer: string | string[]`. -/
inductive CorrectAnswer where
  | one (s : String)
  | many (l : List String)
deriving DecidableEq, Repr

structure Question where
  id : Int
  text : String
  type : QuestionType
  options : Option (List String)
  correctAnswer : CorrectAnswer
deriving DecidableEq, Repr

/-- `Array.isArray(question.correctAnswer) ? question.correctAnswer
: [question.correctAnswer]`. -/
def correctAnswerList (question : Question) : List String :=
  match question.correctAnswer with
  | .one s => [s]
  | .many l => l

/-- A `Player` record as held in the shared game state. `score` and
`manuallyCorrectAnswers` are JavaScript numbers and may be `NaN`/absent
(`JSNum.invalid`) when read from the store. -/
structure Player where
  id : String
  name : String
  score : JSNum
  currentAnswer : String
  liveTyping : String
  manuallyCorrectAnswers : JSNum
deriving DecidableEq, Repr

/-- The shared `GameState` document. The player map is an association list
keyed by player id; optional fields are `none` when absent from the store
(the code writes `null` inside an update to delete them). -/
structure GameState where
  status : GameStatus
  currentQuestionIndex : Int
  players : List (String × Player)
  previousStatus : Option GameStatus
  selectedQuizId : Option String
deriving DecidableEq, Repr

/-! ## Answer matching engine (`checkAnswer` in `lib/utils.ts`) -/

/-- `checkAnswer(playerInput, question)`: guard `if (!playerInput) return
false` (only the empty string is falsy), then normalize by trim+lowercase and
test each acceptable answer for exact equality, falling back for TEXT
questions with a non-numeric input to Levenshtein distance at most 1. -/
def checkAnswer (playerInput : String) (question : Question) : Bool :=
  if playerInput = "" then false
  else
    let cleanInput := jsToLower (jsTrim playerInput)
    let correctAnswers := correctAnswerList question
    correctAnswers.any fun correctAnswer =>
      let cleanCorrect := jsToLower (jsTrim correctAnswer)
      if cleanInput = cleanCorrect then true
      else if question.type == QuestionType.TEXT && jsNumberIsNaN cleanInput then
        decide (levenshteinGet cleanInput cleanCorrect ≤ 1)
      else false

/-! ## Game state normalizer (`gameStateHelpers.ts`) -/

/-- A raw player record as read from the store: the six fields the sanitizer
inspects, each an arbitrary primitive value (absent fields are `undef`). -/
structure RawPlayer where
  id : RawVal
  name : RawVal
  score : RawVal
  currentAnswer : RawVal
  liveTyping : RawVal
  manuallyCorrectAnswers : RawVal
deriving DecidableEq, Repr

/-- A raw entry of the players map: either some non-object primitive value or
an object (only objects reach `sanitizePlayer`). -/
inductive RawEntry where
  | prim (v : RawVal)
  | obj (p : RawPlayer)
deriving DecidableEq, Repr

/-- A raw game-state document: the fields `normalizeGameState` inspects.
`players = none` models a `players` field that is absent or not an object. -/
structure RawGameState where
  status : RawVal
  currentQuestionIndex : RawVal
  players : Option (List (String × RawEntry))
  previousStatus : RawVal
deriving DecidableEq, Repr

/-- The result of normalization. The status is carried as a raw value because
the source merely casts it (`gameState.status as GameStatus`) after a
truthiness test and does not validate it against the enum; the index is a
JavaScript number that may be `NaN`. -/
structure NormalizedGameState where
  status : RawVal
  currentQuestionIndex : JSNum
  players : List (String × Player)
  previousStatus : Option RawVal
deriving DecidableEq, Repr

/-- `createDefaultGameState()`: LOBBY, index 0, no players, `previousStatus`
omitted. -/
def createDefaultGameState : NormalizedGameState :=
  { status := .str "LOBBY", currentQuestionIndex := .int 0,
    players := [], previousStatus := none }

/-- `sanitizePlayer(player)`: drop the record unless `id` and `name` are
non-empty strings; otherwise keep it with non-string answer/typing fields
replaced by `""` and non-number/`NaN` numeric fields replaced by `0`. -/
def sanitizePlayer (player : RawPlayer) : Option Player :=
  match player.id, player.name with
  | .str i, .str n =>
      if i = "" || n = "" then none
      else
        some
          { id := i, name := n,
            score := .int (match player.score with
              | .numV (.int sc) => sc
              | _ => 0),
            currentAnswer := match player.currentAnswer with
              | .str s => s
              | _ => "",
            liveTyping := match player.liveTyping with
              | .str s => s
              | _ => "",
            manuallyCorrectAnswers := .int (match player.manuallyCorrectAnswers with
              | .numV (.int m) => m
              | _ => 0) }
  | _, _ => none

/-- `normalizeGameState(gameState)` (the sanitizing variant): a missing or
non-object document yields the default state; players that are objects are
sanitized (and dropped when unsalvageable), non-object entries are dropped;
`status` is kept when truthy and defaulted to `'LOBBY'` otherwise; the index
is kept when number-typed and defaulted to `0` otherwise; `previousStatus` is
included only when truthy. -/
def normalizeGameState (gameState : Option RawGameState) : NormalizedGameState :=
  match gameState with
  | none => createDefaultGameState
  | some g =>
      let normalizedPlayers : List (String × Player) :=
        match g.players with
        | none => []
        | some entries =>
            entries.filterMap fun e =>
              match e.2 with
              | .prim _ => none
              | .obj p => (sanitizePlayer p).map fun sp => (e.1, sp)
      { status := if jsTruthy g.status then g.status else .str "LOBBY",
        currentQuestionIndex :=
          match g.currentQuestionIndex with
          | .numV n => n
          | _ => .int 0,
        players := normalizedPlayers,
        previousStatus :=
          if jsTruthy g.previousStatus then some g.previousStatus else none }

/-! ## Admin phase state machine (`AdminPageContent.tsx`) -/

/-- The initial/default LOBBY state written on first subscription and on
reset. -/
def defaultGameState : GameState :=
  { status := .LOBBY, currentQuestionIndex := 0, players := [],
    previousStatus := none, selectedQuizId := none }

/-- Per-player clearing performed by start/next/previous transitions:
`currentAnswer = ''`, `liveTyping = ''`, `manuallyCorrectAnswers = 0`. -/
def clearPlayerRound (p : Player) : Player :=
  { p with currentAnswer := "", liveTyping := "", manuallyCorrectAnswers := .int 0 }

/-- Clear every player's answer/typing/override fields. -/
def clearAllPlayers (players : List (String × Player)) : List (String × Player) :=
  players.map fun e => (e.1, clearPlayerRound e.2)

/-- `handleStartQuestion`: clear all players, set `status=QUESTION_ACTIVE`,
clear `previousStatus`; when a quiz is locally selected also persist
`selectedQuizId` and reset the index to 0. -/
def handleStartQuestion (localSelectedQuizId : Option String) (s : GameState) :
    GameState :=
  let base : GameState :=
    { s with players := clearAllPlayers s.players,
             status := .QUESTION_ACTIVE, previousStatus := none }
  match localSelectedQuizId with
  | some quizId => { base with selectedQuizId := some quizId, currentQuestionIndex := 0 }
  | none => base

/-- The scoring step of `handleRevealAnswer` for one player of the freshly
fetched snapshot: `isCorrect = checkAnswer(...) || !!manuallyCorrectAnswers`,
score coerced to a valid number and incremented by 100 when correct. -/
def scoreRevealPlayer (question : Question) (p : Player) : Player :=
  let isAutomaticallyCorrect := checkAnswer p.currentAnswer question
  let isManuallyCorrect := jsNumTruthy p.manuallyCorrectAnswers
  let isCorrect := isAutomaticallyCorrect || isManuallyCorrect
  let currentScore := validNumber p.score
  { p with score := .int (if isCorrect then currentScore + 100 else currentScore) }

/-- `handleRevealAnswer`: score the current server-side snapshot of the
players and atomically write the updated player map, `status=REVEAL_ANSWER`
and `previousStatus=null`. -/
def handleRevealAnswer (question : Question) (snapshot : List (String × Player))
    (s : GameState) : GameState :=
  { s with status := .REVEAL_ANSWER,
           players := snapshot.map fun e => (e.1, scoreRevealPlayer question e.2),
           previousStatus := none }

/-- `handleNextQuestion`: no write when `nextIndex >= currentQuestions.length`;
otherwise clear all players, increment the index, set
`status=QUESTION_ACTIVE` and clear `previousStatus`. -/
def handleNextQuestion (questionCount : Nat) (s : GameState) : Option GameState :=
  let nextIndex := s.currentQuestionIndex + 1
  if nextIndex ≥ (questionCount : Int) then none
  else
    some { s with players := clearAllPlayers s.players,
                  status := .QUESTION_ACTIVE,
                  currentQuestionIndex := nextIndex,
                  previousStatus := none }

/-- `handlePreviousQuestion`: no write when `currentQuestionIndex <= 0`;
otherwise clear all players, decrement the index, set
`status=REVEAL_ANSWER` (never QUESTION_ACTIVE) and clear `previousStatus`. -/
def handlePreviousQuestion (s : GameState) : Option GameState :=
  if s.currentQuestionIndex ≤ 0 then none
  else
    some { s with players := clearAllPlayers s.players,
                  status := .REVEAL_ANSWER,
                  currentQuestionIndex := s.currentQuestionIndex - 1,
                  previousStatus := none }

/-- `handleShowLeaderboard`: set `status=LEADERBOARD` and record the status
being left in `previousStatus`. -/
def handleShowLeaderboard (s : GameState) : GameState :=
  { s with status := .LEADERBOARD, previousStatus := some s.status }

/-- `handleHideLeaderboard`: restore `status = previousStatus || 'REVEAL_ANSWER'`
and clear `previousStatus`. -/
def handleHideLeaderboard (s : GameState) : GameState :=
  { s with status := s.previousStatus.getD .REVEAL_ANSWER, previousStatus := none }

/-- Look up a player by id in the players map. -/
def lookupPlayer (playerId : String) (players : List (String × Player)) :
    Option Player :=
  (players.find? fun e => e.1 == playerId).map fun e => e.2

/-- Write an updated player under its id. -/
def updatePlayerIn (playerId : String) (f : Player → Player)
    (players : List (String × Player)) : List (String × Player) :=
  players.map fun e => if e.1 == playerId then (e.1, f e.2) else e

/-- `handleManualOverride(playerId)`: no-op when the player is absent;
otherwise set only that player's `manuallyCorrectAnswers` flag to 1 (the
score is recomputed only inside `handleRevealAnswer`). -/
def handleManualOverride (playerId : String) (s : GameState) : Option GameState :=
  match lookupPlayer playerId s.players with
  | none => none
  | some _ =>
      let setFlag : Player → Player := fun p => { p with manuallyCorrectAnswers := .int 1 }
      some { s with players := updatePlayerIn playerId setFlag s.players }

/-- `handleRemoveOverride(playerId)`: no-op when the player is absent or the
flag is falsy; otherwise clear the flag to 0. -/
def handleRemoveOverride (playerId : String) (s : GameState) : Option GameState :=
  match lookupPlayer playerId s.players with
  | none => none
  | some p =>
      if jsNumTruthy p.manuallyCorrectAnswers then
        let clearFlag : Player → Player := fun q => { q with manuallyCorrectAnswers := .int 0 }
        some { s with players := updatePlayerIn playerId clearFlag s.players }
      else none

/-! ## Player session controller (`app/page.tsx`) -/

/-- The UI error state set by critical `onError` callbacks. -/
structure ErrorStateModel where
  hasError : Bool
  errorCode : Option FirebaseErrorCode
  isRetrying : Bool
  retryCount : Nat
deriving DecidableEq, Repr

/-- The single path-level write issued by `submitAnswer`: both fields of the
player's subtree in one `safeUpdate`, with its retry budget. -/
structure SubmitAnswerWrite where
  path : String
  currentAnswer : String
  liveTyping : String
  retries : Nat
deriving DecidableEq, Repr

/-- `submitAnswer(answer)`: no write when the player id is empty or the
answer trims to the empty string; otherwise one `safeUpdate` on
`game/players/{playerId}` writing the trimmed answer and clearing
`liveTyping`, with 5 retries. -/
def submitAnswer (playerId answer : String) : Option SubmitAnswerWrite :=
  if playerId = "" || jsTrim answer = "" then none
  else
    some { path := "game/players/" ++ playerId,
           currentAnswer := jsTrim answer,
           liveTyping := "",
           retries := 5 }

/-- The `onError` callback of `submitAnswer`'s critical write: surfaces the
classified error to the user as a blocking error state. -/
def submitAnswerOnError (e : FirebaseErrorCode) : ErrorStateModel :=
  { hasError := true, errorCode := some e, isRetrying := false, retryCount := 0 }

/-- Effect of a successful `submitAnswer` write on the shared state (the
player's two leaf fields; an absent player id leaves the map unchanged). -/
def applySubmitAnswer (playerId answer : String) (s : GameState) : GameState :=
  let write : Player → Player :=
    fun p => { p with currentAnswer := jsTrim answer, liveTyping := "" }
  { s with players := updatePlayerIn playerId write s.players }

/-- Effect of a `updateLiveTyping` best-effort write. -/
def applyLiveTyping (playerId text : String) (s : GameState) : GameState :=
  let write : Player → Player := fun p => { p with liveTyping := text }
  { s with players := updatePlayerIn playerId write s.players }

/-- `handleLogin(name)`: no write when the trimmed name or the player id is
empty; otherwise write a fresh Player record (`score=0`, empty answer/typing
fields; `manuallyCorrectAnswers` is omitted by the source, modelled as the
invalid/absent number). -/
def handleLogin (playerId name : String) (s : GameState) : Option GameState :=
  if jsTrim name = "" || playerId = "" then none
  else
    let fresh : Player :=
      { id := playerId, name := jsTrim name, score := .int 0,
        currentAnswer := "", liveTyping := "", manuallyCorrectAnswers := .invalid }
    let players :=
      if s.players.any (fun e => e.1 == playerId) then
        s.players.map fun e => if e.1 == playerId then (playerId, fresh) else e
      else s.players ++ [(playerId, fresh)]
    some { s with players := players }

/-! ## Commands and reachability

A command is a host transition (issued through the control panel, whose
buttons are only rendered when the phase precondition holds) or a player
operation. `applyCmd` returns `none` when the command is unavailable or its
handler bails out without writing. -/

inductive Cmd where
  | startQuestion (localSelectedQuizId : Option String)
  | revealAnswer (question : Question) (snapshot : List (String × Player))
  | nextQuestion (questionCount : Nat)
  | previousQuestion
  | showLeaderboard
  | hideLeaderboard
  | resetGame
  | manualOverride (playerId : String)
  | removeOverride (playerId : String)
  | playerJoin (playerId name : String)
  | playerSubmitAnswer (playerId answer : String)
  | playerLiveTyping (playerId text : String)

/-- One step of the shared state: the control-panel availability guard
composed with the handler. -/
def applyCmd : Cmd → GameState → Option GameState
  | .startQuestion quizId, s =>
      if s.status == .LOBBY && quizId.isSome then
        some (handleStartQuestion quizId s)
      else none
  | .revealAnswer q snap, s =>
      if s.status == .QUESTION_ACTIVE then some (handleRevealAnswer q snap s)
      else none
  | .nextQuestion count, s =>
      if s.status == .REVEAL_ANSWER || s.status == .LEADERBOARD then
        handleNextQuestion count s
      else none
  | .previousQuestion, s =>
      if s.status == .REVEAL_ANSWER || s.status == .LEADERBOARD then
        handlePreviousQuestion s
      else none
  | .showLeaderboard, s =>
      if s.status == .LEADERBOARD then none else some (handleShowLeaderboard s)
  | .hideLeaderboard, s =>
      if s.status == .LEADERBOARD then some (handleHideLeaderboard s) else none
  | .resetGame, _ => some defaultGameState
  | .manualOverride pid, s => handleManualOverride pid s
  | .removeOverride pid, s => handleRemoveOverride pid s
  | .playerJoin pid name, s => handleLogin pid name s
  | .playerSubmitAnswer pid ans, s =>
      if (submitAnswer pid ans).isSome then some (applySubmitAnswer pid ans s)
      else none
  | .playerLiveTyping pid text, s =>
      if pid = "" then none else some (applyLiveTyping pid text s)

/-- `Step s s'`: some command turns `s` into `s'`. -/
def Step (s s' : GameState) : Prop := ∃ c, applyCmd c s = some s'

/-- States reachable from the default LOBBY state. -/
def Reachable (s : GameState) : Prop :=
  Relation.ReflTransGen Step defaultGameState s

/-! ## Fixtures: concrete questions, players and states from the quiz data -/

/-- "Name the capital of France." from the general-knowledge quiz. -/
def qParisSpec : Question :=
  ⟨2, "Name the capital of France.", .TEXT, none, .one "Paris"⟩

/-- "What is 7 x 8?" with the acceptable answers used by the specification's
example. -/
def q56Spec : Question :=
  ⟨4, "What is 7 x 8?", .TEXT, none, .many ["56", "fifty-six"]⟩

/-- "Which planet is closest to the Sun?" from the general-knowledge quiz. -/
def qMercSpec : Question :=
  ⟨3, "Which planet is closest to the Sun?", .MCQ,
   some ["Venus", "Mercury", "Mars", "Earth"], .one "Mercury"⟩

/-- The fresh-quiz template question created by `handleCreateNewQuiz`
(`correctAnswer: ''`). -/
def qTemplateSpec : Question :=
  ⟨1, "Sample question - edit this text", .TEXT, none, .one ""⟩

def alicePlayer : Player := ⟨"p1", "Alice", .int 0, "Mercury", "", .int 0⟩

def sQuestionActive : GameState :=
  { status := .QUESTION_ACTIVE, currentQuestionIndex := 0,
    players := [("p1", alicePlayer)], previousStatus := none,
    selectedQuizId := some "general-knowledge" }

def sRevealIdx0 : GameState :=
  { status := .REVEAL_ANSWER, currentQuestionIndex := 0,
    players := [("p1", alicePlayer)], previousStatus := none,
    selectedQuizId := some "general-knowledge" }

def sRevealIdx1 : GameState := { sRevealIdx0 with currentQuestionIndex := 1 }

/-! ## Helper lemmas -/

/-- Mapping a function over a list relates it pointwise to the original. -/
theorem forall₂_map_self {α β : Type} (f : α → β) (R : α → β → Prop)
    (h : ∀ a, R a (f a)) : ∀ l : List α, List.Forall₂ R l (l.map f) := by
  intro l
  induction l with
  | nil => exact List.Forall₂.nil
  | cons a t ih => exact List.Forall₂.cons (h a) ih

/-! ## C7: leaderboard toggle round trip -/

/-- C7: for every state with a non-LEADERBOARD status, `showLeaderboard`
followed by `hideLeaderboard` restores exactly that status and leaves
`previousStatus` absent; and `hideLeaderboard` with `previousStatus` absent
sets the status to REVEAL_ANSWER. -/
theorem showHideLeaderboard_roundTrip :
    (∀ s : GameState, s.status ≠ GameStatus.LEADERBOARD →
        (handleHideLeaderboard (handleShowLeaderboard s)).status = s.status ∧
        (handleHideLeaderboard (handleShowLeaderboard s)).previousStatus = none) ∧
    (∀ s : GameState, s.previousStatus = none →
        (handleHideLeaderboard s).status = GameStatus.REVEAL_ANSWER) := by
  constructor
  · intro s _
    simp [handleShowLeaderboard, handleHideLeaderboard]
  · intro s h
    simp [handleHideLeaderboard, h]

/-- Witness for C7 at the default LOBBY state. -/
theorem showHideLeaderboard_roundTrip_witness :
    (handleHideLeaderboard (handleShowLeaderboard defaultGameState)).status =
      GameStatus.LOBBY ∧
    (handleHideLeaderboard defaultGameState).status = GameStatus.REVEAL_ANSWER := by
  constructor
  · exact (showHideLeaderboard_roundTrip.1 defaultGameState (by decide)).1
  · exact showHideLeaderboard_roundTrip.2 defaultGameState rfl

/-! ## C1: the reveal-answer transition -/

/-- C1: from any QUESTION_ACTIVE state, `revealAnswer` atomically writes
`status=REVEAL_ANSWER` with `previousStatus` cleared, and maps the server
snapshot of players pointwise to the same player with the score replaced by
the (NaN-coerced) old score plus 100 exactly when the matching engine accepts
the answer or the manual-override flag is truthy; all other player fields are
unchanged. -/
theorem revealAnswer_spec :
    ∀ (s : GameState) (question : Question) (snapshot : List (String × Player)),
      s.status = GameStatus.QUESTION_ACTIVE →
      (handleRevealAnswer question snapshot s).status = GameStatus.REVEAL_ANSWER ∧
      (handleRevealAnswer question snapshot s).previousStatus = none ∧
      (handleRevealAnswer question snapshot s).currentQuestionIndex =
        s.currentQuestionIndex ∧
      (handleRevealAnswer question snapshot s).selectedQuizId = s.selectedQuizId ∧
      List.Forall₂
        (fun old new =>
          new.1 = old.1 ∧
          new.2.score = JSNum.int (validNumber old.2.score +
            (if checkAnswer old.2.currentAnswer question = true ∨
                jsNumTruthy old.2.manuallyCorrectAnswers = true then 100 else 0)) ∧
          new.2.id = old.2.id ∧ new.2.name = old.2.name ∧
          new.2.currentAnswer = old.2.currentAnswer ∧
          new.2.liveTyping = old.2.liveTyping ∧
          new.2.manuallyCorrectAnswers = old.2.manuallyCorrectAnswers)
        snapshot (handleRevealAnswer question snapshot s).players := by
  intro s question snapshot _
  refine ⟨rfl, rfl, rfl, rfl, ?_⟩
  show List.Forall₂ _ snapshot
    (snapshot.map fun e => (e.1, scoreRevealPlayer question e.2))
  apply forall₂_map_self
  intro e
  refine ⟨rfl, ?_, rfl, rfl, rfl, rfl, rfl⟩
  cases hA : checkAnswer e.2.currentAnswer question <;>
    cases hM : jsNumTruthy e.2.manuallyCorrectAnswers <;>
      simp [scoreRevealPlayer, hA, hM]

/-- Witness for C1: Alice's correct MCQ answer is scored from a concrete
QUESTION_ACTIVE state. -/
theorem revealAnswer_spec_witness :
    (handleRevealAnswer qMercSpec [("p1", alicePlayer)] sQuestionActive).status =
      GameStatus.REVEAL_ANSWER :=
  (revealAnswer_spec sQuestionActive qMercSpec [("p1", alicePlayer)] rfl).1

/-! ## C10: manual override at scoring time -/

/-- C10: at reveal time a truthy `manuallyCorrectAnswers` flag always earns
the 100-point bonus, for every question (MCQ included) and every player
(empty `currentAnswer` included); and the override command itself only
requires the player to exist. -/
theorem manualOverride_scoring :
    (∀ (question : Question) (p : Player),
        jsNumTruthy p.manuallyCorrectAnswers = true →
        (scoreRevealPlayer question p).score =
          JSNum.int (validNumber p.score + 100) ∧
        (scoreRevealPlayer question p).currentAnswer = p.currentAnswer) ∧
    (∀ (playerId : String) (s : GameState) (p : Player),
        lookupPlayer playerId s.players = some p →
        (handleManualOverride playerId s).isSome = true) := by
  constructor
  · intro question p h
    simp [scoreRevealPlayer, h]
  · intro playerId s p h
    simp [handleManualOverride, h]

/-- Witness for C10: a player who never submitted (`currentAnswer = ""`) but
carries the override flag gains 100 points on an MCQ question. -/
theorem manualOverride_scoring_witness :
    (scoreRevealPlayer qMercSpec ⟨"p2", "Bob", JSNum.int 40, "", "", JSNum.int 1⟩).score =
      JSNum.int 140 :=
  ((manualOverride_scoring.1 qMercSpec
      ⟨"p2", "Bob", JSNum.int 40, "", "", JSNum.int 1⟩ (by decide)).1).trans (by decide)

/-! ## C6: next/previous question -/

/-- C6: `nextQuestion` past the last index and `previousQuestion` at index 0
perform no write; otherwise `nextQuestion` increments the index into
QUESTION_ACTIVE and `previousQuestion` decrements it into REVEAL_ANSWER
(never QUESTION_ACTIVE), both clearing every player's answer/typing/override
fields and clearing `previousStatus`. -/
theorem nextPreviousQuestion_spec :
    (∀ (s : GameState) (questionCount : Nat),
        (questionCount : Int) ≤ s.currentQuestionIndex + 1 →
        handleNextQuestion questionCount s = none) ∧
    (∀ s : GameState, s.currentQuestionIndex ≤ 0 →
        handlePreviousQuestion s = none) ∧
    (∀ (s : GameState) (questionCount : Nat),
        s.currentQuestionIndex + 1 < (questionCount : Int) →
        ∃ s', handleNextQuestion questionCount s = some s' ∧
          s'.status = GameStatus.QUESTION_ACTIVE ∧
          s'.currentQuestionIndex = s.currentQuestionIndex + 1 ∧
          s'.previousStatus = none ∧
          s'.selectedQuizId = s.selectedQuizId ∧
          List.Forall₂
            (fun old new =>
              new.1 = old.1 ∧ new.2.id = old.2.id ∧ new.2.name = old.2.name ∧
              new.2.score = old.2.score ∧ new.2.currentAnswer = "" ∧
              new.2.liveTyping = "" ∧ new.2.manuallyCorrectAnswers = JSNum.int 0)
            s.players s'.players) ∧
    (∀ s : GameState, 0 < s.currentQuestionIndex →
        ∃ s', handlePreviousQuestion s = some s' ∧
          s'.status = GameStatus.REVEAL_ANSWER ∧
          s'.currentQuestionIndex = s.currentQuestionIndex - 1 ∧
          s'.previousStatus = none ∧
          s'.selectedQuizId = s.selectedQuizId ∧
          List.Forall₂
            (fun old new =>
              new.1 = old.1 ∧ new.2.id = old.2.id ∧ new.2.name = old.2.name ∧
              new.2.score = old.2.score ∧ new.2.currentAnswer = "" ∧
              new.2.liveTyping = "" ∧ new.2.manuallyCorrectAnswers = JSNum.int 0)
            s.players s'.players) := by
  have hclear : ∀ players : List (String × Player),
      List.Forall₂
        (fun old new =>
          new.1 = old.1 ∧ new.2.id = old.2.id ∧ new.2.name = old.2.name ∧
          new.2.score = old.2.score ∧ new.2.currentAnswer = "" ∧
          new.2.liveTyping = "" ∧ new.2.manuallyCorrectAnswers = JSNum.int 0)
        players (clearAllPlayers players) := by
    intro players
    apply forall₂_map_self
    intro e
    exact ⟨rfl, rfl, rfl, rfl, rfl, rfl, rfl⟩
  refine ⟨?_, ?_, ?_, ?_⟩
  · intro s questionCount h
    simp only [handleNextQuestion]
    rw [if_pos]
    omega
  · intro s h
    simp only [handlePreviousQuestion]
    rw [if_pos h]
  · intro s questionCount h
    refine ⟨{ s with players := clearAllPlayers s.players,
                     status := GameStatus.QUESTION_ACTIVE,
                     currentQuestionIndex := s.currentQuestionIndex + 1,
                     previousStatus := none },
            ?_, rfl, rfl, rfl, rfl, hclear s.players⟩
    simp only [handleNextQuestion]
    rw [if_neg]
    omega
  · intro s h
    refine ⟨{ s with players := clearAllPlayers s.players,
                     status := GameStatus.REVEAL_ANSWER,
                     currentQuestionIndex := s.currentQuestionIndex - 1,
                     previousStatus := none },
            ?_, rfl, rfl, rfl, rfl, hclear s.players⟩
    simp only [handlePreviousQuestion]
    rw [if_neg]
    omega

/-- Witness for C6: with a 2-question quiz, `nextQuestion` at the last index
is a no-op, `previousQuestion` at index 0 is a no-op, and the in-range moves
land on the expected phases. -/
theorem nextPreviousQuestion_spec_witness :
    handleNextQuestion 2 sRevealIdx1 = none ∧
    handlePreviousQuestion sRevealIdx0 = none ∧
    (∃ s', handleNextQuestion 2 sRevealIdx0 = some s' ∧
        s'.status = GameStatus.QUESTION_ACTIVE) ∧
    (∃ s', handlePreviousQuestion sRevealIdx1 = some s' ∧
        s'.status = GameStatus.REVEAL_ANSWER) := by
  refine ⟨?_, ?_, ?_, ?_⟩
  · exact nextPreviousQuestion_spec.1 sRevealIdx1 2 (by decide)
  · exact nextPreviousQuestion_spec.2.1 sRevealIdx0 (by decide)
  · obtain ⟨s', h1, h2, -⟩ := nextPreviousQuestion_spec.2.2.1 sRevealIdx0 2 (by decide)
    exact ⟨s', h1, h2⟩
  · obtain ⟨s', h1, h2, -⟩ := nextPreviousQuestion_spec.2.2.2 sRevealIdx1 (by decide)
    exact ⟨s', h1, h2⟩

/-! ## C4: the retry wrapper -/

/-- Attempt-count bound for the retry loop: at most `remaining + 1` attempts
are made. -/
theorem withRetryGo_attempts_le (outcomes : Nat → AttemptOutcome)
    (retryDelay : Nat) :
    ∀ (remaining attempt : Nat),
      (withRetryGo outcomes retryDelay attempt remaining).attempts ≤ remaining + 1 := by
  intro remaining
  induction remaining with
  | zero =>
      intro attempt
      unfold withRetryGo
      cases outcomes attempt with
      | ok => simp
      | fail e => cases h : isRetryableError e <;> simp [h]
  | succ r ih =>
      intro attempt
      unfold withRetryGo
      cases outcomes attempt with
      | ok => simp
      | fail e =>
          cases h : isRetryableError e
          · simp [h]
          · simpa [h] using ih (attempt + 1)

/-- C4: a first non-retryable failure is abandoned after exactly one attempt
with `onError` fired once and the typed operation error thrown; with
`retries=3` and the default 1s base delay, all-retryable failures produce
exactly 4 attempts with backoff sleeps 1s, 2s, 4s, `onError` fired once with
the final error which is also thrown; and `retries=3` never makes more than 4
attempts. -/
theorem withRetry_spec :
    (∀ (outcomes : Nat → AttemptOutcome) (retries retryDelay : Nat)
        (e : FirebaseErrorCode),
        outcomes 0 = AttemptOutcome.fail e → isRetryableError e = false →
        withRetry outcomes retries retryDelay =
          { attempts := 1, delays := [], onRetryCalls := [],
            onErrorCalls := [e], result := some e }) ∧
    (∀ (outcomes : Nat → AttemptOutcome) (errs : Nat → FirebaseErrorCode),
        (∀ i, outcomes i = AttemptOutcome.fail (errs i)) →
        (∀ i, isRetryableError (errs i) = true) →
        withRetry outcomes 3 1000 =
          { attempts := 4, delays := [1000, 2000, 4000],
            onRetryCalls := [(1, errs 0), (2, errs 1), (3, errs 2)],
            onErrorCalls := [errs 3], result := some (errs 3) }) ∧
    (∀ (outcomes : Nat → AttemptOutcome) (retryDelay : Nat),
        (withRetry outcomes 3 retryDelay).attempts ≤ 4) := by
  refine ⟨?_, ?_, ?_⟩
  · intro outcomes retries retryDelay e ho hr
    cases retries <;> · unfold withRetry withRetryGo; rw [ho]; simp [hr]
  · intro outcomes errs ho hr
    unfold withRetry withRetryGo
    rw [ho 0]
    simp only [hr 0, if_true]
    unfold withRetryGo
    rw [ho 1]
    simp only [hr 1, if_true]
    unfold withRetryGo
    rw [ho 2]
    simp only [hr 2, if_true]
    unfold withRetryGo
    rw [ho 3]
    simp only [hr 3, if_true]
    norm_num
  · intro outcomes retryDelay
    exact withRetryGo_attempts_le outcomes retryDelay 3 0

/-- Witness for C4: a permission-denied first failure stops after one
attempt; constant unavailable failures exhaust the 4 attempts with 1s/2s/4s
backoff. -/
theorem withRetry_spec_witness :
    withRetry (fun _ => AttemptOutcome.fail .permissionDenied) 3 1000 =
      { attempts := 1, delays := [], onRetryCalls := [],
        onErrorCalls := [.permissionDenied], result := some .permissionDenied } ∧
    withRetry (fun _ => AttemptOutcome.fail .unavailable) 3 1000 =
      { attempts := 4, delays := [1000, 2000, 4000],
        onRetryCalls := [(1, .unavailable), (2, .unavailable), (3, .unavailable)],
        onErrorCalls := [.unavailable], result := some .unavailable} := by
  constructor
  · exact withRetry_spec.1 _ 3 1000 .permissionDenied rfl (by decide)
  · exact withRetry_spec.2.1 _ (fun _ => .unavailable) (fun _ => rfl) (fun _ => rfl)

/-! ## C9: answer submission -/


theorem withRetryGo_onError_of_thrown (outcomes : Nat → AttemptOutcome)
    (retryDelay : Nat) :
    ∀ (remaining attempt : Nat) (e : FirebaseErrorCode),
      (withRetryGo outcomes retryDelay attempt remaining).result = some e →
      (withRetryGo outcomes retryDelay attempt remaining).onErrorCalls = [e] := by
  intro remaining
  induction remaining with
  | zero =>
      intro attempt e h
      unfold withRetryGo at h ⊢
      cases ho : outcomes attempt with
      | ok => simp [ho] at h
      | fail e2 =>
          cases hr : isRetryableError e2 <;>
            · simp only [hr, Bool.false_eq_true, Bool.true_eq_false, if_false, if_true,
                Option.some.injEq] at h ⊢
              simp_all
  | succ r ih =>
      intro attempt e h
      unfold withRetryGo at h ⊢
      cases ho : outcomes attempt with
      | ok => simp [ho] at h
      | fail e2 =>
          cases hr : isRetryableError e2
          · simp only [hr, Bool.false_eq_true, if_false, Option.some.injEq] at h ⊢
            simp_all
          · simp only [ho, hr, if_true] at h ⊢
            exact ih (attempt + 1) e h

/-- C9: an answer that trims to the empty string causes no write; otherwise
`submitAnswer` issues one update on the player's subtree carrying the trimmed
answer together with the cleared `liveTyping`, using 5 retries; and a
terminal failure of that critical write is surfaced once through `onError`
into a blocking error state, never swallowed. -/
theorem submitAnswer_spec :
    (∀ playerId answer : String, jsTrim answer = "" →
        submitAnswer playerId answer = none) ∧
    (∀ playerId answer : String, playerId ≠ "" → jsTrim answer ≠ "" →
        submitAnswer playerId answer =
          some { path := "game/players/" ++ playerId,
                 currentAnswer := jsTrim answer, liveTyping := "",
                 retries := 5 }) ∧
    (∀ (outcomes : Nat → AttemptOutcome) (e : FirebaseErrorCode),
        (withRetry outcomes 5 1000).result = some e →
        (withRetry outcomes 5 1000).onErrorCalls = [e] ∧
        (submitAnswerOnError e).hasError = true) := by
  refine ⟨?_, ?_, ?_⟩
  · intro playerId answer h
    simp [submitAnswer, h]
  · intro playerId answer h1 h2
    simp [submitAnswer, h1, h2]
  · intro outcomes e h
    exact ⟨withRetryGo_onError_of_thrown outcomes 1000 5 0 e h, rfl⟩

/-- Witness for C9: a padded answer is trimmed into a single 5-retry write,
a whitespace-only answer writes nothing, and an exhausted critical write
surfaces its final error. -/
theorem submitAnswer_spec_witness :
    submitAnswer "p1" " Mercury " =
      some { path := "game/players/p1", currentAnswer := "Mercury",
             liveTyping := "", retries := 5 } ∧
    submitAnswer "p1" "   " = none ∧
    (submitAnswerOnError FirebaseErrorCode.unavailable).hasError = true := by
  refine ⟨?_, ?_, ?_⟩
  · exact (submitAnswer_spec.2.1 "p1" " Mercury " (by decide) (by decide)).trans (by decide)
  · exact submitAnswer_spec.1 "p1" "   " (by decide)
  · exact (submitAnswer_spec.2.2 (fun _ => AttemptOutcome.fail .unavailable)
      FirebaseErrorCode.unavailable (by decide)).2

/-! ## C2: the answer matcher -/

/-- C2: for every non-empty submission, the matcher accepts exactly when the
normalized submission equals a normalized acceptable answer, or the question
is TEXT, the submission is non-numeric, and the edit distance to some
acceptable answer is at most 1; MCQ questions therefore get no fuzzy credit
and numeric TEXT submissions only exact credit (`"56"` vs `"57"` against
`["56","fifty-six"]`). -/
theorem checkAnswer_spec :
    (∀ (input : String) (question : Question), input ≠ "" →
      (checkAnswer input question = true ↔
        (∃ ans ∈ correctAnswerList question,
            jsToLower (jsTrim input) = jsToLower (jsTrim ans)) ∨
        (question.type = QuestionType.TEXT ∧
          jsNumberIsNaN (jsToLower (jsTrim input)) = true ∧
          ∃ ans ∈ correctAnswerList question,
            levenshteinGet (jsToLower (jsTrim input)) (jsToLower (jsTrim ans)) ≤ 1))) ∧
    checkAnswer "56" q56Spec = true ∧
    checkAnswer "57" q56Spec = false := by
  refine ⟨?_, by decide, by decide⟩
  intro input question hne
  have hElem : ∀ ca : String,
      ((if jsToLower (jsTrim input) = jsToLower (jsTrim ca) then true
        else if question.type == QuestionType.TEXT &&
                 jsNumberIsNaN (jsToLower (jsTrim input)) then
          decide (levenshteinGet (jsToLower (jsTrim input)) (jsToLower (jsTrim ca)) ≤ 1)
        else false) = true)
      ↔ (jsToLower (jsTrim input) = jsToLower (jsTrim ca) ∨
         (question.type = QuestionType.TEXT ∧
          jsNumberIsNaN (jsToLower (jsTrim input)) = true ∧
          levenshteinGet (jsToLower (jsTrim input)) (jsToLower (jsTrim ca)) ≤ 1)) := by
    intro ca
    split_ifs with hEq hT
    · simp [hEq]
    · rw [Bool.and_eq_true, beq_iff_eq] at hT
      simp [hEq, hT.1, hT.2, decide_eq_true_eq]
    · rw [Bool.not_eq_true, Bool.and_eq_false_iff] at hT
      simp only [false_iff]
      push_neg
      refine ⟨hEq, ?_⟩
      intro hTy hN
      rcases hT with hT | hT
      · rw [beq_eq_false_iff_ne] at hT
        exact absurd hTy hT
      · rw [hN] at hT
        exact absurd hT (by simp)
  constructor
  · intro hacc
    rw [checkAnswer, if_neg hne, List.any_eq_true] at hacc
    obtain ⟨ca, hmem, hca⟩ := hacc
    rcases (hElem ca).1 hca with h | ⟨ht, hn, hd⟩
    · exact Or.inl ⟨ca, hmem, h⟩
    · exact Or.inr ⟨ht, hn, ca, hmem, hd⟩
  · intro hrhs
    rw [checkAnswer, if_neg hne, List.any_eq_true]
    rcases hrhs with ⟨ca, hmem, h⟩ | ⟨ht, hn, ca, hmem, hd⟩
    · exact ⟨ca, hmem, (hElem ca).2 (Or.inl h)⟩
    · exact ⟨ca, hmem, (hElem ca).2 (Or.inr ⟨ht, hn, hd⟩)⟩

/-- Witness for C2: "paris" is accepted for the capital-of-France TEXT
question through the exact branch of the equivalence. -/
theorem checkAnswer_spec_witness :
    checkAnswer "paris" qParisSpec = true :=
  (checkAnswer_spec.1 "paris" qParisSpec (by decide)).2
    (Or.inl ⟨"Paris", by decide, by decide⟩)

/-! ## C3: blank submissions -/

/-- Lowering preserves emptiness. -/
theorem jsToLower_eq_empty_iff (t : String) : jsToLower t = "" ↔ t = "" := by
  cases t with
  | mk data =>
      cases data <;> simp [jsToLower, String.ext_iff]

/-- C3 (amended): the matcher rejects the empty submission for every
question, but a non-empty whitespace-only submission (which trims to the
empty string and is numeric, so never gets fuzzy credit) is accepted exactly
when some acceptable answer itself trims to the empty string. -/
theorem checkAnswer_blank_spec :
    (∀ question : Question, checkAnswer "" question = false) ∧
    (∀ (s : String) (question : Question), s ≠ "" → jsTrim s = "" →
        (checkAnswer s question = true ↔
          ∃ ans ∈ correctAnswerList question, jsTrim ans = "")) := by
  constructor
  · intro question
    simp [checkAnswer]
  · intro s question hne ht
    have hclean : jsToLower (jsTrim s) = "" := by rw [ht]; rfl
    have hnum : jsNumberIsNaN (jsToLower (jsTrim s)) = false := by
      rw [hclean]; rfl
    rw [checkAnswer, if_neg hne, List.any_eq_true]
    constructor
    · rintro ⟨ca, hmem, hca⟩
      refine ⟨ca, hmem, ?_⟩
      have hnum0 : jsNumberIsNaN "" = false := rfl
      rw [hclean] at hca
      simp only [hnum0, Bool.and_false, Bool.false_eq_true, if_false] at hca
      split_ifs at hca with hEq
      exact (jsToLower_eq_empty_iff (jsTrim ca)).1 hEq.symm
    · rintro ⟨ca, hmem, hca⟩
      refine ⟨ca, hmem, ?_⟩
      rw [hclean]
      have : jsToLower (jsTrim ca) = "" := by rw [hca]; rfl
      rw [this]
      simp

/-- Counterexample for C3 as stated: the whitespace-only submission `" "` is
accepted against the fresh-quiz template question, whose acceptable answer is
the empty string. -/
theorem checkAnswer_blank_counterexample :
    checkAnswer " " qTemplateSpec = true := by decide

/-- Witness for C3 (amended): the empty submission is rejected even by the
template question, and `" "` is accepted exactly because the template's
answer trims to empty. -/
theorem checkAnswer_blank_spec_witness :
    checkAnswer "" qTemplateSpec = false ∧
    checkAnswer " " (⟨9, "q", QuestionType.MCQ, none, .one "x"⟩ : Question) = false := by
  constructor
  · exact checkAnswer_blank_spec.1 qTemplateSpec
  · have h := (checkAnswer_blank_spec.2 " "
      (⟨9, "q", QuestionType.MCQ, none, .one "x"⟩ : Question) (by decide) (by decide))
    rw [Bool.eq_false_iff]
    intro hc
    obtain ⟨ans, hmem, hans⟩ := h.1 hc
    rw [show correctAnswerList (⟨9, "q", QuestionType.MCQ, none, .one "x"⟩ : Question)
          = ["x"] from rfl, List.mem_singleton] at hmem
    subst hmem
    exact absurd hans (by decide)

/-! ## C5: the normalizer -/

/-- A raw document with a truthy non-phase status string and a negative
(number-typed) index. -/
def c5BogusRaw : RawGameState :=
  ⟨RawVal.str "BANANA", RawVal.numV (JSNum.int (-3)), none, RawVal.undef⟩

/-- Counterexample for C5 as stated: `normalize` passes a truthy non-phase
status string through unvalidated and keeps a negative number-typed index, so
the output violates the §3 invariants the claim promises. -/
theorem normalizeGameState_counterexample :
    (normalizeGameState (some c5BogusRaw)).status ∉
        ([RawVal.str "LOBBY", RawVal.str "QUESTION_ACTIVE",
          RawVal.str "REVEAL_ANSWER", RawVal.str "LEADERBOARD"] : List RawVal) ∧
    (normalizeGameState (some c5BogusRaw)).currentQuestionIndex =
      JSNum.int (-3) := by
  constructor
  · decide
  · rfl

/-- C5 (amended): a missing document normalizes to the default LOBBY state;
`status` is defaulted to LOBBY exactly when the raw value is falsy (truthy
non-phase values pass through unvalidated) and the index is defaulted to 0
exactly when the raw value is not number-typed (number values, `NaN` and
negatives included, pass through); player entries that are not objects are
dropped; object entries are kept iff their `id` and `name` are non-empty
strings, in which case the identity fields are preserved, string answer
fields are kept (non-strings become `""`) and numeric fields are kept when
finite numbers (anything else becomes `0`). -/
theorem normalizeGameState_amended :
    (normalizeGameState none = createDefaultGameState) ∧
    (∀ g : RawGameState,
        (jsTruthy g.status = false →
            (normalizeGameState (some g)).status = RawVal.str "LOBBY") ∧
        (jsTruthy g.status = true →
            (normalizeGameState (some g)).status = g.status) ∧
        (isNumberTyped g.currentQuestionIndex = false →
            (normalizeGameState (some g)).currentQuestionIndex = JSNum.int 0) ∧
        (∀ n, g.currentQuestionIndex = RawVal.numV n →
            (normalizeGameState (some g)).currentQuestionIndex = n) ∧
        (g.players = none → (normalizeGameState (some g)).players = []) ∧
        (∀ entries, g.players = some entries →
            (normalizeGameState (some g)).players =
              entries.filterMap fun e =>
                match e.2 with
                | RawEntry.prim _ => none
                | RawEntry.obj p => (sanitizePlayer p).map fun sp => (e.1, sp))) ∧
    (∀ (p : RawPlayer) (sp : Player), sanitizePlayer p = some sp →
        sp.id ≠ "" ∧ sp.name ≠ "" ∧
        p.id = RawVal.str sp.id ∧ p.name = RawVal.str sp.name ∧
        (∃ i : Int, sp.score = JSNum.int i) ∧
        (∃ m : Int, sp.manuallyCorrectAnswers = JSNum.int m) ∧
        (∀ a : String, p.currentAnswer = RawVal.str a → sp.currentAnswer = a) ∧
        (isStringTyped p.currentAnswer = false → sp.currentAnswer = "") ∧
        (∀ a : String, p.liveTyping = RawVal.str a → sp.liveTyping = a) ∧
        (isStringTyped p.liveTyping = false → sp.liveTyping = "") ∧
        (∀ i : Int, p.score = RawVal.numV (JSNum.int i) → sp.score = JSNum.int i) ∧
        ((∀ i : Int, p.score ≠ RawVal.numV (JSNum.int i)) → sp.score = JSNum.int 0) ∧
        (∀ m : Int, p.manuallyCorrectAnswers = RawVal.numV (JSNum.int m) →
            sp.manuallyCorrectAnswers = JSNum.int m) ∧
        ((∀ m : Int, p.manuallyCorrectAnswers ≠ RawVal.numV (JSNum.int m)) →
            sp.manuallyCorrectAnswers = JSNum.int 0)) ∧
    (∀ p : RawPlayer,
        ((∀ s : String, p.id ≠ RawVal.str s) ∨ p.id = RawVal.str "" ∨
         (∀ s : String, p.name ≠ RawVal.str s) ∨ p.name = RawVal.str "") →
        sanitizePlayer p = none) := by
  refine ⟨rfl, ?_, ?_, ?_⟩
  · intro g
    refine ⟨?_, ?_, ?_, ?_, ?_, ?_⟩
    · intro h
      simp [normalizeGameState, h]
    · intro h
      simp [normalizeGameState, h]
    · intro h
      rcases hq : g.currentQuestionIndex with _ | _ | _ | n | _
      · simp [normalizeGameState, hq]
      · simp [normalizeGameState, hq]
      · simp [normalizeGameState, hq]
      · simp [hq, isNumberTyped] at h
      · simp [normalizeGameState, hq]
    · intro n h
      simp [normalizeGameState, h]
    · intro h
      simp [normalizeGameState, h]
    · intro entries h
      simp [normalizeGameState, h]
  · intro p sp hsp
    obtain ⟨pid, pname, pscore, pca, plt, pm⟩ := p
    cases pid <;> cases pname <;>
      simp only [sanitizePlayer] at hsp <;>
      try exact Option.noConfusion hsp
    rename_i ids names
    by_cases hi : ids = ""
    · simp [hi] at hsp
    by_cases hn : names = ""
    · simp [hi, hn] at hsp
    simp only [hi, hn, Bool.or_self, if_neg, Option.some.injEq,
      decide_eq_true_eq] at hsp
    rw [if_neg (by simp [hi, hn])] at hsp
    obtain rfl := Option.some.inj hsp
    refine ⟨hi, hn, rfl, rfl, ⟨_, rfl⟩, ⟨_, rfl⟩, ?_, ?_, ?_, ?_, ?_, ?_, ?_, ?_⟩
    · intro a ha
      rw [show pca = RawVal.str a from ha]
    · intro hns
      cases pca <;> first | rfl | simp [isStringTyped] at hns
    · intro a ha
      rw [show plt = RawVal.str a from ha]
    · intro hns
      cases plt <;> first | rfl | simp [isStringTyped] at hns
    · intro i hi2
      rw [show pscore = RawVal.numV (JSNum.int i) from hi2]
    · intro hno
      rcases pscore with _ | _ | _ | n | _ <;> try rfl
      rcases n with _ | i
      · rfl
      · exact absurd rfl (hno i)
    · intro m hm2
      rw [show pm = RawVal.numV (JSNum.int m) from hm2]
    · intro hno
      rcases pm with _ | _ | _ | n | _ <;> try rfl
      rcases n with _ | m
      · rfl
      · exact absurd rfl (hno m)
  · intro p hbad
    obtain ⟨pid, pname, pscore, pca, plt, pm⟩ := p
    rcases hbad with h | h | h | h
    · cases pid <;> first | rfl | exact absurd rfl (h _)
    · rw [show pid = RawVal.str "" from h]
      cases pname <;> simp [sanitizePlayer]
    · cases pid <;> cases pname <;> first | rfl | exact absurd rfl (h _)
    · rw [show pname = RawVal.str "" from h]
      cases pid <;> simp [sanitizePlayer]

/-- Witness for C5 (amended): a falsy status defaults to LOBBY, and a player
record whose id is not a string is dropped. -/
theorem normalizeGameState_amended_witness :
    (normalizeGameState
        (some (⟨RawVal.undef, RawVal.str "x", none, RawVal.nullV⟩ : RawGameState))).status =
      RawVal.str "LOBBY" ∧
    sanitizePlayer
        ⟨RawVal.undef, RawVal.str "Alice", RawVal.numV JSNum.invalid,
         RawVal.boolV true, RawVal.undef, RawVal.nullV⟩ = none :=
  ⟨(normalizeGameState_amended.2.1 _).1 (by decide),
   normalizeGameState_amended.2.2.2 _ (Or.inl fun _ h => RawVal.noConfusion h)⟩

/-! ## C8: the `previousStatus` invariant -/

/-- Strengthened invariant: `previousStatus` is present iff the phase is
LEADERBOARD, and it never records LEADERBOARD itself. -/
def LeaderboardInv (s : GameState) : Prop :=
  (s.previousStatus.isSome ↔ s.status = GameStatus.LEADERBOARD) ∧
  ∀ t, s.previousStatus = some t → t ≠ GameStatus.LEADERBOARD

theorem leaderboardInv_default : LeaderboardInv defaultGameState := by
  constructor <;> simp [defaultGameState]

theorem leaderboardInv_step {s s' : GameState} (hinv : LeaderboardInv s)
    (hstep : Step s s') : LeaderboardInv s' := by
  obtain ⟨c, hc⟩ := hstep
  cases c with
  | startQuestion quizId =>
      simp only [applyCmd] at hc
      split at hc
      · obtain rfl := Option.some.inj hc
        cases quizId <;>
          exact ⟨by simp [handleStartQuestion], by simp [handleStartQuestion]⟩
      · exact Option.noConfusion hc
  | revealAnswer q snap =>
      simp only [applyCmd] at hc
      split at hc
      · obtain rfl := Option.some.inj hc
        exact ⟨by simp [handleRevealAnswer], by simp [handleRevealAnswer]⟩
      · exact Option.noConfusion hc
  | nextQuestion count =>
      simp only [applyCmd] at hc
      split at hc
      · simp only [handleNextQuestion] at hc
        split at hc
        · exact Option.noConfusion hc
        · obtain rfl := Option.some.inj hc
          exact ⟨by simp, by simp⟩
      · exact Option.noConfusion hc
  | previousQuestion =>
      simp only [applyCmd] at hc
      split at hc
      · simp only [handlePreviousQuestion] at hc
        split at hc
        · exact Option.noConfusion hc
        · obtain rfl := Option.some.inj hc
          exact ⟨by simp, by simp⟩
      · exact Option.noConfusion hc
  | showLeaderboard =>
      simp only [applyCmd] at hc
      split at hc
      · exact Option.noConfusion hc
      · rename_i hguard
        obtain rfl := Option.some.inj hc
        refine ⟨by simp [handleShowLeaderboard], ?_⟩
        intro t ht
        simp only [handleShowLeaderboard, Option.some.injEq] at ht
        subst ht
        simpa using hguard
  | hideLeaderboard =>
      simp only [applyCmd] at hc
      split at hc
      · rename_i hguard
        obtain rfl := Option.some.inj hc
        have hst : s.status = GameStatus.LEADERBOARD := by simpa using hguard
        have hsome : s.previousStatus.isSome := (hinv.1).2 hst
        obtain ⟨t, ht⟩ := Option.isSome_iff_exists.1 hsome
        have htne := hinv.2 t ht
        refine ⟨?_, ?_⟩
        · simp only [handleHideLeaderboard, ht, Option.getD_some, Option.isSome_none]
          simp [htne]
        · intro u hu
          simp [handleHideLeaderboard] at hu
      · exact Option.noConfusion hc
  | resetGame =>
      simp only [applyCmd] at hc
      obtain rfl := Option.some.inj hc
      exact leaderboardInv_default
  | manualOverride pid =>
      simp only [applyCmd, handleManualOverride] at hc
      rcases hl : lookupPlayer pid s.players with _ | p
      · simp only [hl] at hc
        exact Option.noConfusion hc
      · simp only [hl] at hc
        obtain rfl := Option.some.inj hc
        exact ⟨hinv.1, hinv.2⟩
  | removeOverride pid =>
      simp only [applyCmd, handleRemoveOverride] at hc
      rcases hl : lookupPlayer pid s.players with _ | p
      · simp only [hl] at hc
        exact Option.noConfusion hc
      · simp only [hl] at hc
        by_cases hj : jsNumTruthy p.manuallyCorrectAnswers = true
        · rw [if_pos hj] at hc
          obtain rfl := Option.some.inj hc
          exact ⟨hinv.1, hinv.2⟩
        · rw [if_neg hj] at hc
          exact Option.noConfusion hc
  | playerJoin pid name =>
      simp only [applyCmd, handleLogin] at hc
      split at hc
      · exact Option.noConfusion hc
      · obtain rfl := Option.some.inj hc
        exact ⟨hinv.1, hinv.2⟩
  | playerSubmitAnswer pid ans =>
      simp only [applyCmd] at hc
      split at hc
      · obtain rfl := Option.some.inj hc
        exact ⟨hinv.1, hinv.2⟩
      · exact Option.noConfusion hc
  | playerLiveTyping pid text =>
      simp only [applyCmd] at hc
      split at hc
      · exact Option.noConfusion hc
      · obtain rfl := Option.some.inj hc
        exact ⟨hinv.1, hinv.2⟩

/-- C8: in every state reachable from the default LOBBY state by host
transitions and player operations, `previousStatus` is present iff the phase
is LEADERBOARD; `showLeaderboard` is the only command that sets it (to the
status being left), and every other transition clears it (writing the
Firebase `null` deletion sentinel, modelled as `none`). -/
theorem previousStatus_leaderboard_invariant :
    (∀ s : GameState, Reachable s →
        (s.previousStatus.isSome ↔ s.status = GameStatus.LEADERBOARD)) ∧
    (∀ s s' : GameState, applyCmd Cmd.showLeaderboard s = some s' →
        s'.previousStatus = some s.status) ∧
    (∀ (s s' : GameState) (quizId : Option String),
        applyCmd (Cmd.startQuestion quizId) s = some s' →
        s'.previousStatus = none) ∧
    (∀ (s s' : GameState) (q : Question) (snap : List (String × Player)),
        applyCmd (Cmd.revealAnswer q snap) s = some s' →
        s'.previousStatus = none) ∧
    (∀ (s s' : GameState) (count : Nat),
        applyCmd (Cmd.nextQuestion count) s = some s' →
        s'.previousStatus = none) ∧
    (∀ s s' : GameState, applyCmd Cmd.previousQuestion s = some s' →
        s'.previousStatus = none) ∧
    (∀ s s' : GameState, applyCmd Cmd.hideLeaderboard s = some s' →
        s'.previousStatus = none) ∧
    (∀ s s' : GameState, applyCmd Cmd.resetGame s = some s' →
        s'.previousStatus = none) := by
  refine ⟨?_, ?_, ?_, ?_, ?_, ?_, ?_, ?_⟩
  · intro s hreach
    have h : LeaderboardInv s := by
      induction hreach with
      | refl => exact leaderboardInv_default
      | tail hr hstep ih => exact leaderboardInv_step ih hstep
    exact h.1
  · intro s s' hc
    simp only [applyCmd] at hc
    split at hc
    · exact Option.noConfusion hc
    · obtain rfl := Option.some.inj hc
      rfl
  · intro s s' quizId hc
    simp only [applyCmd] at hc
    split at hc
    · obtain rfl := Option.some.inj hc
      cases quizId <;> rfl
    · exact Option.noConfusion hc
  · intro s s' q snap hc
    simp only [applyCmd] at hc
    split at hc
    · obtain rfl := Option.some.inj hc
      rfl
    · exact Option.noConfusion hc
  · intro s s' count hc
    simp only [applyCmd] at hc
    split at hc
    · simp only [handleNextQuestion] at hc
      split at hc
      · exact Option.noConfusion hc
      · obtain rfl := Option.some.inj hc
        rfl
    · exact Option.noConfusion hc
  · intro s s' hc
    simp only [applyCmd] at hc
    split at hc
    · simp only [handlePreviousQuestion] at hc
      split at hc
      · exact Option.noConfusion hc
      · obtain rfl := Option.some.inj hc
        rfl
    · exact Option.noConfusion hc
  · intro s s' hc
    simp only [applyCmd] at hc
    split at hc
    · obtain rfl := Option.some.inj hc
      rfl
    · exact Option.noConfusion hc
  · intro s s' hc
    simp only [applyCmd] at hc
    obtain rfl := Option.some.inj hc
    rfl

/-- Witness for C8 at the reachable default state. -/
theorem previousStatus_leaderboard_invariant_witness :
    defaultGameState.previousStatus.isSome ↔
      defaultGameState.status = GameStatus.LEADERBOARD :=
  previousStatus_leaderboard_invariant.1 defaultGameState Relation.ReflTransGen.refl
